import Mathlib

/-!
Verification development for the ytdownloader-pro repository.

The repository consists of several near-duplicate Express services
(src/backend/server.js, src/backend/index.js, src/unnamed/part_000,
src/unnamed/part_001, src/unnamed/part_002).  This file shallowly embeds
the request handlers, the in-memory caches, the fallback chains and the
string helpers of those sources.  External collaborators (ytdl-core,
axios, yt-dlp, the HTTP layer) are modelled as oracle parameters:
an `Option` value stands for the outcome of one external call
(`some` = the call succeeded with that payload, `none` = it threw /
returned a falsy result).
-/

namespace YT

/-! ## JS query-parameter helpers

Express hands each query parameter to the handlers as either `undefined`
(absent) or a string.  `isMissing` models the pervasive `if (!param)`
falsy check (absent or empty string); `getD` models an ES6 destructuring
default (`const { type = "mp4" } = req.query`, which fires only on
`undefined`); `orDefault` models `req.query.type || "mp4"` (which also
fires on the empty string). -/

def isMissing : Option String → Bool
  | none => true
  | some s => s.isEmpty

def orDefault (q : Option String) (d : String) : String :=
  match q with
  | none => d
  | some s => if s.isEmpty then d else s

/-! ## Sequential fallback chains

`runChainTr` embeds the `for (const source of sources) { try ... }`
loops of `getVideoInfo` (part_001, lines 104-122),
`getDownloadUrlFromExternalAPI` (server.js, lines 322-352) and
`downloadWithAlternativeMethod` (part_001, lines 294-322).  The list
element at index `i` is the oracle outcome of invoking source `i`
(`none` = the source threw or produced no usable result).  The second
component of the result is the instrumentation: the indices of the
sources that were actually invoked, in invocation order. -/

def runChainTr {α : Type} : List (Option α) → Option α × List Nat
  | [] => (none, [])
  | some v :: _ => (some v, [0])
  | none :: rest => ((runChainTr rest).1, 0 :: (runChainTr rest).2.map Nat.succ)

/-- Function `getVideoInfo` of part_001: tries Invidious, then the youtubei
endpoint, then yt-dlp, returning the first success (`if (info) return
info`), and throws only after all three failed. -/
def getVideoInfo {α : Type} (inv ytb dlp : Option α) : Option α × List Nat :=
  runChainTr [inv, ytb, dlp]

/-- Function `getDownloadUrlFromExternalAPI` of server.js: posts to each external
API in order; the oracle entry is `some d_url` exactly when the request
succeeded and the response carried a `d_url`; returns `null` after the
loop otherwise. -/
def getDownloadUrlFromExternalAPI (apiResults : List (Option String)) :
    Option String × List Nat :=
  runChainTr apiResults

/-! ## `extractVideoId` (server.js lines 249-262, part_002 lines 326-339)

The two copies are textually identical.  The JS function tries two
regular expressions in order:
  1. unanchored `(?:v=|youtu\.be\/|shorts\/)([a-zA-Z0-9_-]{11})`
  2. anchored `^([a-zA-Z0-9_-]{11})$`
and returns the first capture, else `null`.  The embedding works on
`List Char`: `findPat1` scans start positions left to right exactly as
the JS regex engine does, and at each position tries the three marker
alternatives in order (their first characters differ, so at most one can
apply) followed by exactly eleven identifier characters. -/

def isIdChar (c : Char) : Bool :=
  ('a' ≤ c && c ≤ 'z') || ('A' ≤ c && c ≤ 'Z') || ('0' ≤ c && c ≤ '9')
    || c = '_' || c = '-'

def markerV : List Char := ['v', '=']

def markerBe : List Char := ['y', 'o', 'u', 't', 'u', '.', 'b', 'e', '/']

def markerShorts : List Char := ['s', 'h', 'o', 'r', 't', 's', '/']

/-- Strip a literal marker from the front of the character list. -/
def dropLead : List Char → List Char → Option (List Char)
  | [], l => some l
  | _ :: _, [] => none
  | p :: ps, c :: cs => if p = c then dropLead ps cs else none

/-- The `(?:v=|youtu\.be\/|shorts\/)` alternation at one start position. -/
def markerRest (l : List Char) : Option (List Char) :=
  match dropLead markerV l with
  | some r => some r
  | none =>
    match dropLead markerBe l with
    | some r => some r
    | none => dropLead markerShorts l

/-- Capture `([a-zA-Z0-9_-]{n})`: exactly `n` identifier characters. -/
def takeId : Nat → List Char → Option (List Char)
  | 0, _ => some []
  | _ + 1, [] => none
  | n + 1, c :: cs =>
    if isIdChar c then (takeId n cs).map (fun r => c :: r) else none

def matchAt (l : List Char) : Option (List Char) :=
  match markerRest l with
  | some r => takeId 11 r
  | none => none

/-- Left-to-right scan of pattern 1 over all start positions. -/
def findPat1 : List Char → Option (List Char)
  | [] => none
  | c :: cs =>
    match matchAt (c :: cs) with
    | some v => some v
    | none => findPat1 cs

/-- Anchored pattern 2: the whole string is an eleven-character id. -/
def pat2 (l : List Char) : Option (List Char) :=
  if l.length = 11 && l.all isIdChar then some l else none

def extractVideoId (s : String) : Option String :=
  match findPat1 s.data with
  | some v => some ⟨v⟩
  | none =>
    match pat2 s.data with
    | some v => some ⟨v⟩
    | none => none

/-! ## In-memory caches (JS `Map` with get / set / delete)

`server.js` keeps `cache` with `CACHE_DURATION = 5 * 60 * 1000`;
`part_002` keeps `videoCache` with `CACHE_DURATION = 10 * 60 * 1000`.
A JS `Map` is embedded as an association list looked up by key; `set`
overwrites an existing binding in place or appends a new one. -/

structure CacheEntry (α : Type) where
  data : α
  timestamp : Nat
deriving Repr, DecidableEq

def mapGet {β : Type} : List (String × β) → String → Option β
  | [], _ => none
  | (k', v) :: rest, k => if k' = k then some v else mapGet rest k

def mapSet {β : Type} : List (String × β) → String → β → List (String × β)
  | [], k, v => [(k, v)]
  | (k', v') :: rest, k, v =>
    if k' = k then (k, v) :: rest else (k', v') :: mapSet rest k v

def CACHE_DURATION_server : Nat := 5 * 60 * 1000

def CACHE_DURATION_p2 : Nat := 10 * 60 * 1000

/-- The hourly sweep of server.js (lines 354-362) and part_002 (lines
418-427): iterate over the entries and delete exactly those with
`now - value.timestamp > duration`; an entry is kept when its age is at
most the duration. -/
def sweep {α : Type} (dur now : Nat) (cache : List (String × CacheEntry α)) :
    List (String × CacheEntry α) :=
  cache.filter fun kv => decide (now - kv.2.timestamp ≤ dur)

/-! ## Info endpoints -/

/-- Response of an info endpoint.  `hit` is the 200 body marked
`cached: true`, `fresh` the 200 body marked `cached: false`, `fallback`
the 200 body marked `fallback: true`, `failed` the generic 500 body. -/
inductive InfoResp (α : Type) where
  | missingUrl
  | invalidUrl
  | hit (d : α)
  | fresh (d : α)
  | fallback (d : α)
  | failed
deriving Repr, DecidableEq

def InfoResp.status {α : Type} : InfoResp α → Nat
  | .missingUrl => 400
  | .invalidUrl => 400
  | .hit _ => 200
  | .fresh _ => 200
  | .fallback _ => 200
  | .failed => 500

/-- Result of one info request: the response, the cache state afterwards,
and whether the extraction capability (`ytdl.getInfo`) was invoked. -/
structure InfoOutcome (α : Type) where
  resp : InfoResp α
  cache : List (String × CacheEntry α)
  extractCalled : Bool
deriving Repr, DecidableEq

/-- Tail of server.js `/api/info` after a cache miss (lines 56-101):
`ytdl.getInfo` succeeds and the result is stored under the key with the
current time, or it throws and the catch block runs `extractVideoId` on
the query url (rethrow and 500 when `null`, otherwise `getFallbackInfo`,
which never throws in server.js, yields a 200 fallback body). -/
def serverFetch {α : Type} (extract : Option α) (fallbackInfo : α) (now : Nat)
    (cache : List (String × CacheEntry α)) (url cacheKey : String) :
    InfoOutcome α :=
  match extract with
  | some d => ⟨.fresh d, mapSet cache cacheKey ⟨d, now⟩, true⟩
  | none =>
    match extractVideoId url with
    | none => ⟨.failed, cache, true⟩
    | some _ => ⟨.fallback fallbackInfo, cache, true⟩

/-- server.js `GET /api/info` (lines 35-102).  `valid` is the
`ytdl.validateURL` oracle, `extract` the `ytdl.getInfo` outcome,
`fallbackInfo` the body `getFallbackInfo` would deliver. -/
def apiInfo_server {α : Type} (valid : String → Bool) (extract : Option α)
    (fallbackInfo : α) (now : Nat)
    (cache : List (String × CacheEntry α)) (urlQ : Option String) :
    InfoOutcome α :=
  if isMissing urlQ then ⟨.missingUrl, cache, false⟩
  else
    match urlQ with
    | none => ⟨.missingUrl, cache, false⟩
    | some url =>
      if valid url then
        let cacheKey := "info:" ++ url
        match mapGet cache cacheKey with
        | some cached =>
          if now - cached.timestamp < CACHE_DURATION_server then
            ⟨.hit cached.data, cache, false⟩
          else serverFetch extract fallbackInfo now cache url cacheKey
        | none => serverFetch extract fallbackInfo now cache url cacheKey
      else ⟨.invalidUrl, cache, false⟩

/-- Cache key of part_002 `/api/info`: `` `info_${extractVideoId(url)}` ``
(JS renders a `null` video id as the string "null"). -/
def p2Key (url : String) : String :=
  "info_" ++ (match extractVideoId url with
    | some v => v
    | none => "null")

/-- Tail of part_002 `/api/info` after a cache miss (lines 70-150); the
catch block mirrors server.js (part_002's `getFallbackInfo` never
throws either). -/
def p2Fetch {α : Type} (extract : Option α) (fallbackInfo : α) (now : Nat)
    (cache : List (String × CacheEntry α)) (url cacheKey : String) :
    InfoOutcome α :=
  match extract with
  | some d => ⟨.fresh d, mapSet cache cacheKey ⟨d, now⟩, true⟩
  | none =>
    match extractVideoId url with
    | none => ⟨.failed, cache, true⟩
    | some _ => ⟨.fallback fallbackInfo, cache, true⟩

/-- part_002 `GET /api/info` (lines 36-151). -/
def apiInfo_p2 {α : Type} (valid : String → Bool) (extract : Option α)
    (fallbackInfo : α) (now : Nat)
    (cache : List (String × CacheEntry α)) (urlQ : Option String) :
    InfoOutcome α :=
  if isMissing urlQ then ⟨.missingUrl, cache, false⟩
  else
    match urlQ with
    | none => ⟨.missingUrl, cache, false⟩
    | some url =>
      if valid url then
        let cacheKey := p2Key url
        match mapGet cache cacheKey with
        | some cached =>
          if now - cached.timestamp < CACHE_DURATION_p2 then
            ⟨.hit cached.data, cache, false⟩
          else p2Fetch extract fallbackInfo now cache url cacheKey
        | none => p2Fetch extract fallbackInfo now cache url cacheKey
      else ⟨.invalidUrl, cache, false⟩

/-- index.js `GET /api/info` (lines 31-120).  There is no URL/identifier
validation: the raw `videoId` is spliced into a watch URL and handed to
`ytdl.getInfo`; on a throw the handler tries `getVideoInfoFallback`
(which can itself throw, via axios) and otherwise answers 500.  The
handler also writes a `videoCache` entry that is only ever deleted by a
timer and never read; that write-only cache is not modelled because no
response depends on it. -/
def apiInfo_idx {α : Type} (extract : Option α) (fallbackRes : Option α)
    (videoIdQ : Option String) : InfoResp α × Bool :=
  if isMissing videoIdQ then (.missingUrl, false)
  else
    match extract with
    | some d => (.fresh d, true)
    | none =>
      match fallbackRes with
      | some fb => (.fallback fb, true)
      | none => (.failed, true)

/-- part_001 `GET /info` (lines 52-68): no validation, no cache; the
`getVideoInfo` fallback chain answers 200 on any success and the catch
block answers 500. -/
def info_p1 {α : Type} (inv ytb dlp : Option α) (videoIdQ : Option String) :
    InfoResp α × Bool :=
  if isMissing videoIdQ then (.missingUrl, false)
  else
    match (getVideoInfo inv ytb dlp).1 with
    | some v => (.fresh v, true)
    | none => (.failed, true)

/-! ## Stream endpoint -/

inductive StreamResp where
  | missingUrl
  | invalidUrl
  | redirect (u : String)
  | noStreamUrl
  | failed
deriving Repr, DecidableEq

def StreamResp.status : StreamResp → Nat
  | .missingUrl => 400
  | .invalidUrl => 400
  | .redirect _ => 302
  | .noStreamUrl => 500
  | .failed => 500

/-- server.js `GET /api/stream` (lines 190-217).  `fmtUrl` is the oracle
for `ytdl.getInfo` followed by `chooseFormat`: `none` when `getInfo`
throws, `some none` when the chosen format has no url (500 "Could not
get stream URL"), `some (some u)` for a redirect to `u`. -/
def apiStream_server (valid : String → Bool) (fmtUrl : Option (Option String))
    (urlQ : Option String) : StreamResp :=
  if isMissing urlQ then .missingUrl
  else
    match urlQ with
    | none => .missingUrl
    | some url =>
      if valid url then
        match fmtUrl with
        | none => .failed
        | some none => .noStreamUrl
        | some (some u) => .redirect u
      else .invalidUrl

/-! ## Title sanitizers and download endpoints

JS `\w` is `[A-Za-z0-9_]`; JS `\s` covers the ASCII whitespace
characters together with NBSP and the BOM (the Unicode space separators
are omitted here; no claim depends on them).  `title.replace(/[^\w\s]/gi,
'')` keeps exactly the word and whitespace characters. -/

def isWordChar (c : Char) : Bool :=
  ('a' ≤ c && c ≤ 'z') || ('A' ≤ c && c ≤ 'Z') || ('0' ≤ c && c ≤ '9') || c = '_'

def isWs (c : Char) : Bool :=
  c.val = 32 || c.val = 9 || c.val = 10 || c.val = 11 || c.val = 12
    || c.val = 13 || c.val = 160 || c.val = 65279

/-- Models `title.replace(/[^\w\s]/gi, '')` — the whole sanitizing done by
part_000's first `/download` handler (line 23) and by index.js `/direct`
(line 198). -/
def sanitize_plain (s : String) : String :=
  ⟨s.data.filter fun c => isWordChar c || isWs c⟩

/-- Models `.replace(/\s+/g, '_')`: every maximal whitespace run becomes a
single underscore.  The boolean flag records whether the previous
character was part of a whitespace run. -/
def collapseGo : Bool → List Char → List Char
  | _, [] => []
  | inRun, c :: cs =>
    if isWs c then
      if inRun then collapseGo true cs else '_' :: collapseGo true cs
    else c :: collapseGo false cs

/-- Models `title.replace(/[^\w\s]/gi, '').replace(/\s+/g, '_').substring(0,
100)` — the sanitizing of index.js `/download` (lines 142-145) and
part_000's second `/download` handler (lines 232-235). -/
def sanitize_dl (s : String) : String :=
  ⟨(collapseGo false (s.data.filter fun c => isWordChar c || isWs c)).take 100⟩

inductive DlResp where
  | missingId
  | invalidUrl
  | badType
  | streamMp4 (filename : String)
  | streamMp3 (filename : String)
  | redirect (u : String)
  | failed
deriving Repr, DecidableEq

def DlResp.status : DlResp → Nat
  | .missingId => 400
  | .invalidUrl => 400
  | .badType => 400
  | .streamMp4 _ => 200
  | .streamMp3 _ => 200
  | .redirect _ => 302
  | .failed => 500

/-- part_000's first `/download` handler (lines 15-36): no type
validation (anything other than "mp4" streams mp3), plain-filtered
title in the Content-Disposition filename, 500 on extraction failure. -/
def download_p0a (extract : Option String) (videoIdQ typeQ : Option String) :
    DlResp × Bool :=
  if isMissing videoIdQ then (.missingId, false)
  else
    match extract with
    | none => (.failed, true)
    | some title =>
      if typeQ = some "mp4" then
        (.streamMp4 (sanitize_plain title ++ ".mp4"), true)
      else (.streamMp3 (sanitize_plain title ++ ".mp3"), true)

/-- index.js `GET /download` (lines 123-185); part_000's second
`/download` handler (lines 220-275) is textually identical and is
modelled by this same function.  On success the collapsed-and-truncated
title is embedded in the filename; an unknown type is a 400; when
`ytdl.getInfo` throws, the catch block redirects to y2mate, choosing the
target by `req.query.type || 'mp4'`. -/
def download_idx (extract : Option String) (videoIdQ typeQ : Option String) :
    DlResp × Bool :=
  if isMissing videoIdQ then (.missingId, false)
  else
    match videoIdQ with
    | none => (.missingId, false)
    | some vid =>
      match extract with
      | some title =>
        let t := typeQ.getD "mp4"
        if t = "mp4" then (.streamMp4 (sanitize_dl title ++ ".mp4"), true)
        else if t = "mp3" then (.streamMp3 (sanitize_dl title ++ ".mp3"), true)
        else (.badType, true)
      | none =>
        if orDefault typeQ "mp4" = "mp4" then
          (.redirect ("https://www.y2mate.com/youtube/" ++ vid), true)
        else (.redirect ("https://www.y2mate.com/youtube-mp3/" ++ vid), true)

/-- Function `downloadWithAlternativeMethod` of part_001 (lines 294-322): walk the
external API list, redirect to the first `downloadUrl` obtained, throw
when all fail (which the caller turns into a 500). -/
def download_p1_alt (altApis : List (Option String)) : DlResp × Bool :=
  match (runChainTr altApis).1 with
  | some u => (.redirect u, true)
  | none => (.failed, true)

/-- part_001 `GET /download` (lines 71-100): type defaults to "mp4" by
destructuring, an unknown type is a 400 before any extraction, and a
yt-dlp failure falls back to `downloadWithAlternativeMethod`.  `primary`
is the yt-dlp download oracle; `now` feeds the `Date.now()` filename. -/
def download_p1 (primary : Option Unit) (altApis : List (Option String))
    (now : Nat) (videoIdQ typeQ : Option String) : DlResp × Bool :=
  if isMissing videoIdQ then (.missingId, false)
  else
    let t := typeQ.getD "mp4"
    if t = "mp4" then
      match primary with
      | some _ => (.streamMp4 ("video_" ++ Nat.repr now ++ ".mp4"), true)
      | none => download_p1_alt altApis
    else if t = "mp3" then
      match primary with
      | some _ => (.streamMp3 ("audio_" ++ Nat.repr now ++ ".mp3"), true)
      | none => download_p1_alt altApis
    else (.badType, false)

/-! ## part_000 `GET /alternatives` (lines 321-341) -/

def altList (v : String) : List (String × String) :=
  [("y2mate", "https://www.y2mate.com/youtube/" ++ v),
   ("y2mate_mp3", "https://www.y2mate.com/youtube-mp3/" ++ v),
   ("ssyoutube", "https://ssyoutube.com/watch?v=" ++ v),
   ("yt5s", "https://yt5s.com/en?q=https://youtube.com/watch?v=" ++ v),
   ("loader", "https://loader.to/en20/download-youtube-video.html?v=" ++ v)]

inductive AltResp where
  | missingId
  | ok (videoId : String) (alternatives : List (String × String))
deriving Repr, DecidableEq

def AltResp.status : AltResp → Nat
  | .missingId => 400
  | .ok _ _ => 200

/-- The `/alternatives` handler: 400 without a videoId, otherwise a
`success: true` body carrying the five fixed third-party URLs. -/
def alternativesHandler (videoIdQ : Option String) : AltResp :=
  if isMissing videoIdQ then .missingId
  else
    match videoIdQ with
    | none => .missingId
    | some v => .ok v (altList v)

/-! ## `formatDuration` (four copies) -/

/-- Models `n.toString().padStart(2, '0')` for the minute/second fields (which
are always below 60). -/
def pad2 (n : Nat) : String :=
  if n < 10 then "0" ++ Nat.repr n else Nat.repr n

/-- The shared arithmetic core of all four `formatDuration` copies:
hours `H:MM:SS` when the hour part is positive, `M:SS` otherwise. -/
def fmtCore (s : Nat) : String :=
  if 0 < s / 3600 then
    Nat.repr (s / 3600) ++ ":" ++ pad2 (s % 3600 / 60) ++ ":" ++ pad2 (s % 60)
  else Nat.repr (s % 3600 / 60) ++ ":" ++ pad2 (s % 60)

/-- server.js lines 264-274: `if (!seconds) return 'Unknown'`. -/
def formatDuration_server (s : Nat) : String :=
  if s = 0 then "Unknown" else fmtCore s

/-- part_000 lines 55-67: the extra `seconds === "Unknown"` test cannot
fire on a number, so on integers the guard is again `seconds = 0`. -/
def formatDuration_p0 (s : Nat) : String :=
  if s = 0 then "Unknown" else fmtCore s

/-- part_001 lines 324-333: no guard at all. -/
def formatDuration_p1 (s : Nat) : String :=
  fmtCore s

/-- part_002 lines 341-351: `if (!seconds) return '0:00'`. -/
def formatDuration_p2 (s : Nat) : String :=
  if s = 0 then "0:00" else fmtCore s


/-- part_000 `GET /api/info` (lines 125-217): same shape as index.js's
`/api/info` — no validation, `ytdl.getInfo` on success, otherwise
`getVideoInfoFallback` (which can throw, via axios) and a 500 when both
fail.  Its `videoCache` write is write-only (evicted only by a
`setTimeout`) and never read, so it is not modelled, as no response
depends on it. -/
def apiInfo_p0 {α : Type} (extract : Option α) (fallbackRes : Option α)
    (videoIdQ : Option String) : InfoResp α × Bool :=
  if isMissing videoIdQ then (.missingUrl, false)
  else
    match extract with
    | some d => (.fresh d, true)
    | none =>
      match fallbackRes with
      | some fb => (.fallback fb, true)
      | none => (.failed, true)

/-- server.js `GET /api/download` (lines 105-187): 400 on a missing or
invalid URL; `ytdl.getInfo` yields the videoId for the
`video_<id>_<now>` filename; format "mp3" redirects to the best audio
URL when one exists and otherwise streams audio; every other format
streams mp4 (there is no type validation here).  The boolean reports
whether the extraction capability was invoked; stream errors after the
response has begun are outside the model. -/
def download_server (valid : String → Bool) (extract : Option String)
    (bestAudioUrl : Option String) (now : Nat) (urlQ fmtQ : Option String) :
    DlResp × Bool :=
  if isMissing urlQ then (.missingId, false)
  else
    match urlQ with
    | none => (.missingId, false)
    | some url =>
      if valid url then
        match extract with
        | none => (.failed, true)
        | some videoId =>
          if fmtQ.getD "mp4" = "mp3" then
            match bestAudioUrl with
            | some u => (.redirect u, true)
            | none =>
              (.streamMp3 ("video_" ++ videoId ++ "_" ++ Nat.repr now
                ++ ".mp3"), true)
          else
            (.streamMp4 ("video_" ++ videoId ++ "_" ++ Nat.repr now
              ++ ".mp4"), true)
      else (.invalidUrl, false)

/-- part_002 `GET /api/download` (lines 154-237): 400 on a missing or
invalid URL; the filename is `yt_<extracted id>_<now>.<type>` (a `null`
id renders as "null"); type "mp3" or "mp4" starts the corresponding
`ytdl` stream — that call is the extraction capability here, there is no
separate `getInfo` — and any other type is a 400 before any `ytdl`
call. -/
def download_p2 (valid : String → Bool) (now : Nat)
    (urlQ typeQ : Option String) : DlResp × Bool :=
  if isMissing urlQ then (.missingId, false)
  else
    match urlQ with
    | none => (.missingId, false)
    | some url =>
      if valid url then
        let videoId := match extractVideoId url with
          | some v => v
          | none => "null"
        let t := typeQ.getD "mp4"
        if t = "mp3" then
          (.streamMp3 ("yt_" ++ videoId ++ "_" ++ Nat.repr now ++ "." ++ t),
            true)
        else if t = "mp4" then
          (.streamMp4 ("yt_" ++ videoId ++ "_" ++ Nat.repr now ++ "." ++ t),
            true)
        else (.badType, false)
      else (.invalidUrl, false)

/-- part_002 `GET /api/stream` (lines 240-270): textually the same
validate / getInfo / chooseFormat / redirect shape as server.js's
`/api/stream`, with its own format filter inside the oracle. -/
def apiStream_p2 (valid : String → Bool) (fmtUrl : Option (Option String))
    (urlQ : Option String) : StreamResp :=
  if isMissing urlQ then .missingUrl
  else
    match urlQ with
    | none => .missingUrl
    | some url =>
      if valid url then
        match fmtUrl with
        | none => .failed
        | some none => .noStreamUrl
        | some (some u) => .redirect u
      else .invalidUrl

/-- index.js `GET /direct` (lines 188-224): 400 on a missing videoId;
the filename embeds the plain-filtered title (`[^\w\s]` removal only);
type "mp3" streams audio, anything else mp4.  In the catch block the
500 is sent first, so the delayed redirect behind `!res.headersSent`
can never fire: a `getInfo` failure is a 500. -/
def direct_idx (extract : Option String) (videoIdQ typeQ : Option String) :
    DlResp × Bool :=
  if isMissing videoIdQ then (.missingId, false)
  else
    match extract with
    | none => (.failed, true)
    | some title =>
      if typeQ = some "mp3" then
        (.streamMp3 (sanitize_plain title ++ ".mp3"), true)
      else (.streamMp4 (sanitize_plain title ++ ".mp4"), true)

/-- Models `.replace(/\s+/g, ' ')`: every maximal whitespace run becomes
a single space (the part_000 `/direct` variant of `collapseGo`). -/
def collapseGoSp : Bool → List Char → List Char
  | _, [] => []
  | inRun, c :: cs =>
    if isWs c then
      if inRun then collapseGoSp true cs else ' ' :: collapseGoSp true cs
    else c :: collapseGoSp false cs

/-- Models `title.replace(/[^\w\s]/gi, '').replace(/\s+/g,
' ').substring(0, 50)` — the sanitizing of part_000 `/direct`
(lines 288-291). -/
def sanitize_direct50 (s : String) : String :=
  ⟨(collapseGoSp false (s.data.filter fun c => isWordChar c || isWs c)).take 50⟩

/-- part_000 `GET /direct` (lines 278-318): 400 on a missing videoId;
the filename embeds the space-collapsed title truncated to 50
characters; a `getInfo` failure redirects to yt5s for "mp3" and to
ssyoutube otherwise. -/
def direct_p0 (extract : Option String) (videoIdQ typeQ : Option String) :
    DlResp × Bool :=
  if isMissing videoIdQ then (.missingId, false)
  else
    match videoIdQ with
    | none => (.missingId, false)
    | some vid =>
      match extract with
      | none =>
        if typeQ = some "mp3" then
          (.redirect ("https://yt5s.com/en?q=https://youtube.com/watch?v="
            ++ vid), true)
        else (.redirect ("https://ssyoutube.com/watch?v=" ++ vid), true)
      | some title =>
        if typeQ = some "mp3" then
          (.streamMp3 (sanitize_direct50 title ++ ".mp3"), true)
        else (.streamMp4 (sanitize_direct50 title ++ ".mp4"), true)

/-! ## Alternative-API download endpoints -/

/-- Response of an `/api/download/alt` handler.  `crashed` is the catch
block's generic 500 (in part_002: "Alternative download failed"),
`allFailed` the in-line 500 after the external flow yields no URL. -/
inductive AltDlResp where
  | missingUrl
  | invalidUrl
  | redirect (u : String)
  | allFailed
  | crashed
deriving Repr, DecidableEq

def AltDlResp.status : AltDlResp → Nat
  | .missingUrl => 400
  | .invalidUrl => 400
  | .redirect _ => 302
  | .allFailed => 500
  | .crashed => 500

/-- server.js `GET /api/download/alt` (lines 220-246): 400 when the url
is missing, 400 when `extractVideoId` rejects it, otherwise
`getDownloadUrlFromExternalAPI` decides between a redirect and the 500
"All download methods failed".  The boolean reports whether the
external APIs were invoked. -/
def downloadAlt_server (apiResults : List (Option String))
    (urlQ : Option String) : AltDlResp × Bool :=
  if isMissing urlQ then (.missingUrl, false)
  else
    match urlQ with
    | none => (.missingUrl, false)
    | some url =>
      match extractVideoId url with
      | none => (.invalidUrl, false)
      | some _ =>
        match (getDownloadUrlFromExternalAPI apiResults).1 with
        | some u => (.redirect u, true)
        | none => (.allFailed, true)

/-- part_002 `GET /api/download/alt` (lines 273-323): there is no
`!url` guard.  With the url parameter absent, `extractVideoId(undefined)`
throws a TypeError on `url.match`, which the catch block turns into the
500 "Alternative download failed" — before any external call.  With a
present url, a rejected id is a 400, and otherwise the yt5s
search-then-convert flow (collapsed into one oracle: `none` = a request
threw, `some none` = the flow completed without a `d_url`,
`some (some u)` = the final download URL) decides between a redirect,
the in-line 500 and the catch-block 500. -/
def downloadAlt_p2 (ext : Option (Option String)) (urlQ : Option String) :
    AltDlResp × Bool :=
  match urlQ with
  | none => (.crashed, false)
  | some url =>
    match extractVideoId url with
    | none => (.invalidUrl, false)
    | some _ =>
      match ext with
      | none => (.crashed, true)
      | some none => (.allFailed, true)
      | some (some u) => (.redirect u, true)

/-! ## Theorems -/

theorem runChainTr_none_iff {α : Type} (l : List (Option α)) :
    (runChainTr l).1 = none ↔ ∀ r ∈ l, r = none := by
  induction l with
  | nil => simp [runChainTr]
  | cons c rest ih =>
    cases c with
    | some v => simp [runChainTr]
    | none =>
      simp only [runChainTr]
      constructor
      · intro h r hr
        rcases List.mem_cons.mp hr with h1 | h1
        · exact h1
        · exact (ih.mp h) r h1
      · intro h
        exact ih.mpr fun r hr => h r (List.mem_cons_of_mem _ hr)

theorem runChainTr_first {α : Type} (l : List (Option α)) (i : Nat) (v : α)
    (hv : l[i]? = some (some v)) (hbefore : ∀ j, j < i → l[j]? = some none) :
    runChainTr l = (some v, List.range (i + 1)) := by
  induction l generalizing i with
  | nil => simp at hv
  | cons c rest ih =>
    cases i with
    | zero =>
      simp only [List.getElem?_cons_zero, Option.some_inj] at hv
      subst hv
      simp [runChainTr, List.range_succ]
    | succ i =>
      have h0 : c = none := by
        have := hbefore 0 (Nat.succ_pos i)
        simpa using this
      subst h0
      simp only [List.getElem?_cons_succ] at hv
      have hb : ∀ j, j < i → rest[j]? = some none := by
        intro j hj
        have := hbefore (j + 1) (Nat.succ_lt_succ hj)
        simpa using this
      have hrec := ih i hv hb
      simp only [runChainTr, hrec]
      conv_rhs => rw [List.range_succ_eq_map]

theorem runChainTr_trace {α : Type} (l : List (Option α)) :
    ∃ k, k ≤ l.length ∧ (runChainTr l).2 = List.range k := by
  induction l with
  | nil => exact ⟨0, by simp, by simp [runChainTr]⟩
  | cons c rest ih =>
    cases c with
    | some v =>
      refine ⟨1, by simp, ?_⟩
      simp [runChainTr, List.range_succ]
    | none =>
      obtain ⟨k, hk, htr⟩ := ih
      refine ⟨k + 1, by simpa using Nat.succ_le_succ hk, ?_⟩
      simp only [runChainTr, htr]
      rw [List.range_succ_eq_map]

theorem runChainTr_trace_nodup {α : Type} (l : List (Option α)) :
    (runChainTr l).2.Nodup := by
  obtain ⟨k, _, htr⟩ := runChainTr_trace l
  rw [htr]
  exact List.nodup_range k

/-- Claim C1: the metadata-fetch fallback chains try their ordered source
lists sequentially, invoke each source at most once with no retry, return
the first success without invoking any later source, and fail only when
every source has failed.  For `getVideoInfo` (part_001) the three sources
are Invidious, youtubei and yt-dlp; for `getDownloadUrlFromExternalAPI`
(server.js) the result is the first `d_url` obtained, else `null`.  The
trace component lists exactly the invoked sources, so `List.range (i+1)`
says sources `0..i` ran once each and no later source ran. -/
theorem c1_fallback_chain {α : Type} (inv ytb dlp : Option α)
    (apis : List (Option String)) :
    ((getVideoInfo inv ytb dlp).1 = none ↔ inv = none ∧ ytb = none ∧ dlp = none)
    ∧ (∀ v, inv = some v → getVideoInfo inv ytb dlp = (some v, [0]))
    ∧ (∀ v, inv = none → ytb = some v →
        getVideoInfo inv ytb dlp = (some v, [0, 1]))
    ∧ (∀ v, inv = none → ytb = none → dlp = some v →
        getVideoInfo inv ytb dlp = (some v, [0, 1, 2]))
    ∧ (getVideoInfo inv ytb dlp).2.Nodup
    ∧ ((getDownloadUrlFromExternalAPI apis).1 = none ↔ ∀ r ∈ apis, r = none)
    ∧ (∀ i v, apis[i]? = some (some v) → (∀ j, j < i → apis[j]? = some none) →
        getDownloadUrlFromExternalAPI apis = (some v, List.range (i + 1)))
    ∧ (getDownloadUrlFromExternalAPI apis).2.Nodup := by
  refine ⟨?_, ?_, ?_, ?_, ?_, ?_, ?_, ?_⟩
  · rw [getVideoInfo, runChainTr_none_iff]
    simp
  · intro v h; subst h; rfl
  · intro v h1 h2; subst h1; subst h2; rfl
  · intro v h1 h2 h3; subst h1; subst h2; subst h3; rfl
  · exact runChainTr_trace_nodup _
  · exact runChainTr_none_iff apis
  · intro i v hv hb
    exact runChainTr_first apis i v hv hb
  · exact runChainTr_trace_nodup _

/-- Concrete instance of `c1_fallback_chain`: with Invidious failing and
youtubei succeeding, the chain returns youtubei's payload having invoked
exactly sources 0 and 1; an API list failing then succeeding returns the
second `d_url` with trace `[0, 1]`. -/
theorem c1_fallback_chain_witness :
    getVideoInfo (none : Option Nat) (some 7) none = (some 7, [0, 1])
    ∧ getDownloadUrlFromExternalAPI [none, some "u"] = (some "u", List.range 2) := by
  constructor
  · exact (c1_fallback_chain (none : Option Nat) (some 7) none []).2.2.1 7 rfl rfl
  · exact (c1_fallback_chain (none : Option Nat) (some 7) none
      [none, some "u"]).2.2.2.2.2.2.1 1 "u" (by decide) (by decide)

theorem dropLead_spec (p : List Char) :
    ∀ l r, dropLead p l = some r → l = p ++ r := by
  induction p with
  | nil =>
    intro l r h
    simp [dropLead] at h
    simp [h]
  | cons a ps ih =>
    intro l r h
    cases l with
    | nil => simp [dropLead] at h
    | cons c cs =>
      by_cases hac : a = c
      · subst hac
        simp [dropLead] at h
        simpa using ih cs r h
      · simp [dropLead, hac] at h

theorem markerRest_spec (l r : List Char) (h : markerRest l = some r) :
    l = markerV ++ r ∨ l = markerBe ++ r ∨ l = markerShorts ++ r := by
  rw [markerRest] at h
  cases h1 : dropLead markerV l with
  | some r1 =>
    rw [h1] at h
    simp at h
    subst h
    exact Or.inl (dropLead_spec _ _ _ h1)
  | none =>
    rw [h1] at h
    cases h2 : dropLead markerBe l with
    | some r2 =>
      rw [h2] at h
      simp at h
      subst h
      exact Or.inr (Or.inl (dropLead_spec _ _ _ h2))
    | none =>
      rw [h2] at h
      exact Or.inr (Or.inr (dropLead_spec _ _ _ h))

theorem markerRest_none_of_all_id (l : List Char)
    (h : l.all isIdChar = true) : markerRest l = none := by
  cases hm : markerRest l with
  | none => rfl
  | some r =>
    exfalso
    rcases markerRest_spec l r hm with h1 | h1 | h1 <;> subst h1 <;>
      rw [List.all_append] at h <;>
      simp only [Bool.and_eq_true] at h
    · have : markerV.all isIdChar = false := by decide
      rw [this] at h
      exact Bool.false_ne_true h.1
    · have : markerBe.all isIdChar = false := by decide
      rw [this] at h
      exact Bool.false_ne_true h.1
    · have : markerShorts.all isIdChar = false := by decide
      rw [this] at h
      exact Bool.false_ne_true h.1

theorem takeId_spec (n : Nat) :
    ∀ l r, takeId n l = some r →
      r.length = n ∧ r.all isIdChar = true ∧ ∃ q, l = r ++ q := by
  induction n with
  | zero =>
    intro l r h
    simp [takeId] at h
    subst h
    exact ⟨rfl, rfl, l, rfl⟩
  | succ n ih =>
    intro l r h
    cases l with
    | nil => simp [takeId] at h
    | cons c cs =>
      by_cases hc : isIdChar c
      · simp only [takeId, if_pos hc, Option.map_eq_some'] at h
        obtain ⟨r', hr', hmap⟩ := h
        obtain ⟨hlen, hall, q, hq⟩ := ih cs r' hr'
        subst hmap
        refine ⟨by simp [hlen], ?_, q, by simp [hq]⟩
        simp [List.all_cons, hc, hall]
      · simp [takeId, hc] at h

theorem matchAt_spec (l v : List Char) (h : matchAt l = some v) :
    v.length = 11 ∧ v.all isIdChar = true ∧ ∃ p q, l = p ++ v ++ q := by
  rw [matchAt] at h
  cases hm : markerRest l with
  | none => rw [hm] at h; exact absurd h (by simp)
  | some r =>
    rw [hm] at h
    obtain ⟨hlen, hall, q, hq⟩ := takeId_spec 11 r v h
    refine ⟨hlen, hall, ?_⟩
    rcases markerRest_spec l r hm with h1 | h1 | h1
    · exact ⟨markerV, q, by simp [h1, hq]⟩
    · exact ⟨markerBe, q, by simp [h1, hq]⟩
    · exact ⟨markerShorts, q, by simp [h1, hq]⟩

theorem matchAt_none_of_all_id (l : List Char)
    (h : l.all isIdChar = true) : matchAt l = none := by
  rw [matchAt, markerRest_none_of_all_id l h]

theorem findPat1_spec :
    ∀ l v, findPat1 l = some v →
      v.length = 11 ∧ v.all isIdChar = true ∧ ∃ p q, l = p ++ v ++ q := by
  intro l
  induction l with
  | nil => intro v h; simp [findPat1] at h
  | cons c cs ih =>
    intro v h
    rw [findPat1] at h
    cases hm : matchAt (c :: cs) with
    | some w =>
      rw [hm] at h
      simp at h
      subst h
      exact matchAt_spec _ _ hm
    | none =>
      rw [hm] at h
      obtain ⟨hlen, hall, p, q, hpq⟩ := ih v h
      exact ⟨hlen, hall, c :: p, q, by simp [hpq]⟩

theorem findPat1_none_of_all_id :
    ∀ l, l.all isIdChar = true → findPat1 l = none := by
  intro l
  induction l with
  | nil => intro _; rfl
  | cons c cs ih =>
    intro h
    rw [List.all_cons, Bool.and_eq_true] at h
    rw [findPat1, matchAt_none_of_all_id (c :: cs)
      (by rw [List.all_cons, Bool.and_eq_true]; exact h)]
    exact ih h.2

theorem pat2_spec (l v : List Char) (h : pat2 l = some v) :
    v = l ∧ l.length = 11 ∧ l.all isIdChar = true := by
  rw [pat2] at h
  by_cases hc : l.length = 11 && l.all isIdChar
  · rw [if_pos hc] at h
    simp only [Bool.and_eq_true, decide_eq_true_eq] at hc
    simp at h
    exact ⟨h.symm, hc.1, hc.2⟩
  · rw [if_neg hc] at h
    exact absurd h (by simp)

/-- Claim C8: `extractVideoId` returns either `null` or a string of
exactly eleven characters over `[A-Za-z0-9_-]`; a bare eleven-character
identifier is returned unchanged; and a string containing no
eleven-character run of identifier characters yields `null`. -/
theorem c8_extract_video_id (s : String) :
    (∀ v, extractVideoId s = some v →
        v.data.length = 11 ∧ v.data.all isIdChar = true)
    ∧ (s.data.length = 11 → s.data.all isIdChar = true →
        extractVideoId s = some s)
    ∧ ((¬ ∃ p m q, s.data = p ++ m ++ q ∧ m.length = 11
          ∧ m.all isIdChar = true) → extractVideoId s = none) := by
  refine ⟨?_, ?_, ?_⟩
  · intro v h
    rw [extractVideoId] at h
    cases h1 : findPat1 s.data with
    | some w =>
      rw [h1] at h
      simp at h
      obtain ⟨hlen, hall, _, _, _⟩ := findPat1_spec s.data w h1
      rw [← h]
      exact ⟨hlen, hall⟩
    | none =>
      rw [h1] at h
      cases h2 : pat2 s.data with
      | some w =>
        rw [h2] at h
        simp at h
        obtain ⟨hw, hlen, hall⟩ := pat2_spec s.data w h2
        rw [← h, hw]
        exact ⟨hlen, hall⟩
      | none => rw [h2] at h; exact absurd h (by simp)
  · intro hlen hall
    rw [extractVideoId, findPat1_none_of_all_id s.data hall, pat2,
      if_pos (by simp [hlen, hall])]
  · intro hno
    rw [extractVideoId]
    cases h1 : findPat1 s.data with
    | some w =>
      exfalso
      obtain ⟨hlen, hall, p, q, hpq⟩ := findPat1_spec s.data w h1
      exact hno ⟨p, w, q, hpq, hlen, hall⟩
    | none =>
      cases h2 : pat2 s.data with
      | some w =>
        exfalso
        obtain ⟨hw, hlen, hall⟩ := pat2_spec s.data w h2
        exact hno ⟨[], s.data, [], by simp, hlen, hall⟩
      | none => rfl

/-- Concrete instance of `c8_extract_video_id`: the bare identifier
round-trips. -/
theorem c8_extract_video_id_witness :
    extractVideoId "dQw4w9WgXcQ" = some "dQw4w9WgXcQ" :=
  (c8_extract_video_id "dQw4w9WgXcQ").2.1 (by decide) (by decide)

theorem mapGet_mapSet_self {β : Type} (m : List (String × β)) (k : String)
    (v : β) : mapGet (mapSet m k v) k = some v := by
  induction m with
  | nil => simp [mapGet, mapSet]
  | cons kv rest ih =>
    obtain ⟨k', v'⟩ := kv
    by_cases h : k' = k
    · subst h
      simp [mapGet, mapSet]
    · simp [mapGet, mapSet, h, ih]

/-- Claim C2: the `/api/info` cache-aside policy of server.js (and its
part_002 twin).  A cache entry younger than the duration is served
verbatim, marked `cached: true`, without touching the extraction
capability or the cache; a request right after a fresh store, still
inside the window, returns the stored payload, so two requests for the
same key within the window return the same data; on a miss or a stale
entry the extraction capability is invoked and a successful result is
stored under the key with the current timestamp. -/
theorem c2_cache_aside {α : Type} (valid : String → Bool)
    (extract extract2 : Option α) (fb fb2 : α) (now now2 : Nat)
    (cache : List (String × CacheEntry α)) (url : String)
    (hne : url.isEmpty = false) (hv : valid url = true) :
    (∀ e, mapGet cache ("info:" ++ url) = some e →
        now - e.timestamp < CACHE_DURATION_server →
        apiInfo_server valid extract fb now cache (some url)
          = ⟨.hit e.data, cache, false⟩)
    ∧ (mapGet cache ("info:" ++ url) = none →
        (apiInfo_server valid extract fb now cache (some url)).extractCalled
          = true)
    ∧ (∀ e, mapGet cache ("info:" ++ url) = some e →
        CACHE_DURATION_server ≤ now - e.timestamp →
        (apiInfo_server valid extract fb now cache (some url)).extractCalled
          = true)
    ∧ (∀ d, extract = some d → mapGet cache ("info:" ++ url) = none →
        apiInfo_server valid extract fb now cache (some url)
          = ⟨.fresh d, mapSet cache ("info:" ++ url) ⟨d, now⟩, true⟩)
    ∧ (∀ d e, extract = some d → mapGet cache ("info:" ++ url) = some e →
        CACHE_DURATION_server ≤ now - e.timestamp →
        apiInfo_server valid extract fb now cache (some url)
          = ⟨.fresh d, mapSet cache ("info:" ++ url) ⟨d, now⟩, true⟩)
    ∧ (∀ d, extract = some d → now2 - now < CACHE_DURATION_server →
        apiInfo_server valid extract2 fb2 now2
            (mapSet cache ("info:" ++ url) ⟨d, now⟩) (some url)
          = ⟨.hit d, mapSet cache ("info:" ++ url) ⟨d, now⟩, false⟩)
    ∧ (∀ e, mapGet cache (p2Key url) = some e →
        now - e.timestamp < CACHE_DURATION_p2 →
        apiInfo_p2 valid extract fb now cache (some url)
          = ⟨.hit e.data, cache, false⟩)
    ∧ (∀ d, extract = some d → mapGet cache (p2Key url) = none →
        apiInfo_p2 valid extract fb now cache (some url)
          = ⟨.fresh d, mapSet cache (p2Key url) ⟨d, now⟩, true⟩)
    ∧ (mapGet cache (p2Key url) = none →
        (apiInfo_p2 valid extract fb now cache (some url)).extractCalled
          = true)
    ∧ (∀ e, mapGet cache (p2Key url) = some e →
        CACHE_DURATION_p2 ≤ now - e.timestamp →
        (apiInfo_p2 valid extract fb now cache (some url)).extractCalled
          = true)
    ∧ (∀ d e, extract = some d → mapGet cache (p2Key url) = some e →
        CACHE_DURATION_p2 ≤ now - e.timestamp →
        apiInfo_p2 valid extract fb now cache (some url)
          = ⟨.fresh d, mapSet cache (p2Key url) ⟨d, now⟩, true⟩) := by
  refine ⟨?_, ?_, ?_, ?_, ?_, ?_, ?_, ?_, ?_, ?_, ?_⟩
  · intro e hget hfresh
    simp [apiInfo_server, isMissing, hne, hv, hget, hfresh]
  · intro hget
    cases extract with
    | some d => simp [apiInfo_server, serverFetch, isMissing, hne, hv, hget]
    | none =>
      cases hvid : extractVideoId url <;>
        simp [apiInfo_server, serverFetch, isMissing, hne, hv, hget, hvid]
  · intro e hget hstale
    have hnf : ¬ now - e.timestamp < CACHE_DURATION_server := Nat.not_lt.mpr hstale
    cases extract with
    | some d => simp [apiInfo_server, serverFetch, isMissing, hne, hv, hget, hnf]
    | none =>
      cases hvid : extractVideoId url <;>
        simp [apiInfo_server, serverFetch, isMissing, hne, hv, hget, hnf, hvid]
  · intro d hd hget
    subst hd
    simp [apiInfo_server, serverFetch, isMissing, hne, hv, hget]
  · intro d e hd hget hstale
    subst hd
    have hnf : ¬ now - e.timestamp < CACHE_DURATION_server := Nat.not_lt.mpr hstale
    simp [apiInfo_server, serverFetch, isMissing, hne, hv, hget, hnf]
  · intro d hd hfresh
    subst hd
    simp [apiInfo_server, isMissing, hne, hv, mapGet_mapSet_self, hfresh]
  · intro e hget hfresh
    simp [apiInfo_p2, isMissing, hne, hv, hget, hfresh]
  · intro d hd hget
    subst hd
    simp [apiInfo_p2, p2Fetch, isMissing, hne, hv, hget]
  · intro hget
    cases extract with
    | some d => simp [apiInfo_p2, p2Fetch, isMissing, hne, hv, hget]
    | none =>
      cases hvid : extractVideoId url <;>
        simp [apiInfo_p2, p2Fetch, isMissing, hne, hv, hget, hvid]
  · intro e hget hstale
    have hnf : ¬ now - e.timestamp < CACHE_DURATION_p2 := Nat.not_lt.mpr hstale
    cases extract with
    | some d => simp [apiInfo_p2, p2Fetch, isMissing, hne, hv, hget, hnf]
    | none =>
      cases hvid : extractVideoId url <;>
        simp [apiInfo_p2, p2Fetch, isMissing, hne, hv, hget, hnf, hvid]
  · intro d e hd hget hstale
    subst hd
    have hnf : ¬ now - e.timestamp < CACHE_DURATION_p2 := Nat.not_lt.mpr hstale
    simp [apiInfo_p2, p2Fetch, isMissing, hne, hv, hget, hnf]

/-- Concrete instance of `c2_cache_aside`: a one-entry cache, aged 1 ms,
is served as a hit without extraction and without mutation. -/
theorem c2_cache_aside_witness :
    apiInfo_server (fun _ => true) (some 9) 7 1
        [("info:u", ⟨5, 0⟩)] (some "u")
      = ⟨.hit 5, [("info:u", (⟨5, 0⟩ : CacheEntry Nat))], false⟩ :=
  (c2_cache_aside (fun _ => true) (some 9) (some 9) 7 7 1 1
      [("info:u", ⟨5, 0⟩)] "u" (by decide) rfl).1
    ⟨5, 0⟩ (by decide) (by decide)

/-- Claim C3: the periodic sweep deletes exactly the entries whose age
exceeds the duration, keeps every other entry (key, data and timestamp
untouched, in order), and immediately afterwards every remaining entry
has age at most the duration.  server.js runs it with
`CACHE_DURATION_server`, part_002 with `CACHE_DURATION_p2`. -/
theorem c3_sweep {α : Type} (dur now : Nat)
    (cache : List (String × CacheEntry α)) :
    (∀ kv, kv ∈ sweep dur now cache
        ↔ kv ∈ cache ∧ now - kv.2.timestamp ≤ dur)
    ∧ (sweep dur now cache).Sublist cache
    ∧ (∀ kv, kv ∈ sweep dur now cache → now - kv.2.timestamp ≤ dur) := by
  refine ⟨?_, List.filter_sublist _, ?_⟩
  · intro kv
    simp [sweep, List.mem_filter]
  · intro kv h
    simp only [sweep, List.mem_filter, decide_eq_true_eq] at h
    exact h.2

/-- Concrete instance of `c3_sweep`: an entry of age 2 survives a sweep
with duration 5 while an entry of age 10 is deleted. -/
theorem c3_sweep_witness :
    ("a", (⟨3, 8⟩ : CacheEntry Nat))
      ∈ sweep 5 10 [("a", ⟨3, 8⟩), ("b", ⟨4, 0⟩)]
    ∧ ¬ ("b", (⟨4, 0⟩ : CacheEntry Nat))
      ∈ sweep 5 10 [("a", ⟨3, 8⟩), ("b", ⟨4, 0⟩)] := by
  constructor
  · exact ((c3_sweep 5 10 [("a", ⟨3, 8⟩), ("b", ⟨4, 0⟩)]).1
      ("a", ⟨3, 8⟩)).mpr ⟨by decide, by decide⟩
  · intro hmem
    have := ((c3_sweep 5 10 [("a", ⟨3, 8⟩), ("b", ⟨4, 0⟩)]).1
      ("b", ⟨4, 0⟩)).mp hmem
    exact absurd this.2 (by decide)

/-- Claim C4, counterexample: the claim says every info/download
endpoint in any variant answers 400 on an absent identifier without
side effects.  part_002's `/api/download/alt` has no `!url` guard: with
the url parameter absent, `extractVideoId(undefined)` throws a
TypeError inside the try block and the catch answers the 500
"Alternative download failed" — not a 400 (though still without any
external call). -/
theorem c4_missing_param_counterexample :
    downloadAlt_p2 none none = (.crashed, false)
    ∧ (downloadAlt_p2 none none).1.status = 500
    ∧ ¬ (downloadAlt_p2 none none).1.status = 400 :=
  ⟨rfl, rfl, by decide⟩

/-- Claim C4, amended: with the identifier/URL query parameter absent,
every info and download handler in every variant answers 400 without
invoking the extraction capability, without touching the cache, and
without starting a stream or redirect — except part_002's
`/api/download/alt`, which lacks the guard and instead crashes into its
catch block, answering 500 (still with no external call).  This theorem
proves the 400 contract for all the guarded handlers: the five info
endpoints, the five primary download endpoints, the two `/direct`
endpoints and server.js's `/api/download/alt`. -/
theorem c4_missing_param {α : Type} (valid : String → Bool)
    (extract : Option α) (fb : α) (now : Nat)
    (cache : List (String × CacheEntry α)) (inv ytb dlp : Option α)
    (fbIdx : Option α) (extractS bestAudio : Option String)
    (primary : Option Unit) (altApis : List (Option String))
    (ty : Option String) :
    apiInfo_server valid extract fb now cache none
      = ⟨.missingUrl, cache, false⟩
    ∧ (InfoResp.missingUrl : InfoResp α).status = 400
    ∧ apiInfo_p2 valid extract fb now cache none
      = ⟨.missingUrl, cache, false⟩
    ∧ apiInfo_idx extract fbIdx none = (.missingUrl, false)
    ∧ apiInfo_p0 extract fbIdx none = (.missingUrl, false)
    ∧ info_p1 inv ytb dlp none = (.missingUrl, false)
    ∧ download_p0a extractS none ty = (.missingId, false)
    ∧ DlResp.missingId.status = 400
    ∧ download_idx extractS none ty = (.missingId, false)
    ∧ download_p1 primary altApis now none ty = (.missingId, false)
    ∧ download_server valid extractS bestAudio now none ty
      = (.missingId, false)
    ∧ download_p2 valid now none ty = (.missingId, false)
    ∧ direct_idx extractS none ty = (.missingId, false)
    ∧ direct_p0 extractS none ty = (.missingId, false)
    ∧ downloadAlt_server altApis none = (.missingUrl, false)
    ∧ AltDlResp.missingUrl.status = 400 :=
  ⟨rfl, rfl, rfl, rfl, rfl, rfl, rfl, rfl, rfl, rfl, rfl, rfl, rfl, rfl,
   rfl, rfl⟩

/-- Claim C5, counterexample: the claim says every variant answers 400
when the identifier/URL parameter is present but invalid.  The index.js
`/api/info` handler (one of the endpoints the claim covers) performs no
validation at all: with the present identifier "###" — which the
repository's own `extractVideoId` rejects — a failing extraction and a
failing fallback produce a 500, not a 400. -/
theorem c5_invalid_counterexample :
    extractVideoId "###" = none
    ∧ @apiInfo_idx Nat none none (some "###") = (.failed, true)
    ∧ (@apiInfo_idx Nat none none (some "###")).1.status = 500
    ∧ ¬ (@apiInfo_idx Nat none none (some "###")).1.status = 400 := by
  refine ⟨by decide, by decide, by decide, by decide⟩

/-- Claim C5, amended: only the URL-validating variants (server.js and
part_002, in `/api/info`, `/api/download` and `/api/stream`) answer 400
on a present-but-invalid YouTube URL; the identifier-keyed variants
(index.js, part_000, part_001) never validate, and an invalid identifier
there surfaces only through the extraction-failure path (fallback
payload, 500, or redirect).  This theorem proves the 400 contract for
all six validating handlers: `/api/info`, `/api/download` and
`/api/stream` of both server.js and part_002. -/
theorem c5_invalid_amended {α : Type} (valid : String → Bool)
    (extract : Option α) (fb : α) (now : Nat)
    (cache : List (String × CacheEntry α)) (url : String)
    (fmtUrl : Option (Option String)) (extractS bestAudio : Option String)
    (fmtQ tyQ : Option String)
    (hne : url.isEmpty = false) (hv : valid url = false) :
    apiInfo_server valid extract fb now cache (some url)
      = ⟨.invalidUrl, cache, false⟩
    ∧ apiInfo_p2 valid extract fb now cache (some url)
      = ⟨.invalidUrl, cache, false⟩
    ∧ download_server valid extractS bestAudio now (some url) fmtQ
      = (.invalidUrl, false)
    ∧ download_p2 valid now (some url) tyQ = (.invalidUrl, false)
    ∧ apiStream_server valid fmtUrl (some url) = .invalidUrl
    ∧ apiStream_p2 valid fmtUrl (some url) = .invalidUrl
    ∧ (InfoResp.invalidUrl : InfoResp α).status = 400
    ∧ DlResp.invalidUrl.status = 400
    ∧ StreamResp.invalidUrl.status = 400 := by
  refine ⟨?_, ?_, ?_, ?_, ?_, ?_, rfl, rfl, rfl⟩ <;>
    simp [apiInfo_server, apiInfo_p2, download_server, download_p2,
      apiStream_server, apiStream_p2, isMissing, hne, hv]

/-- Concrete instance of `c5_invalid_amended`: a rejected URL yields the
400 body from server.js `/api/info` with no extraction and no cache
write. -/
theorem c5_invalid_amended_witness :
    apiInfo_server (fun _ => false) (none : Option Nat) 0 0 [] (some "u")
      = ⟨.invalidUrl, [], false⟩ :=
  (c5_invalid_amended (fun _ => false) (none : Option Nat) 0 0 [] "u" none
    none none none none (by decide) rfl).1

/-- Claim C6: when the identifier is present and the primary extraction
fails, the response is decided by the fallback: server.js `/api/info`
answers the fallback payload as a success, or a generic 500 when even
the video id cannot be extracted; the index.js (and part_000) download
handler redirects to a third-party service; the part_001 download
handler redirects to the first alternative API that yields a URL and
answers a generic 500 when all of them fail.  No other outcome occurs. -/
theorem c6_extraction_failure {α : Type} (valid : String → Bool) (fb : α)
    (now : Nat) (cache : List (String × CacheEntry α)) (url vid : String)
    (typeQ : Option String) (altApis : List (Option String)) :
    (valid url = true → url.isEmpty = false →
      mapGet cache ("info:" ++ url) = none → extractVideoId url = none →
      apiInfo_server valid (none : Option α) fb now cache (some url)
        = ⟨.failed, cache, true⟩)
    ∧ (valid url = true → url.isEmpty = false →
      mapGet cache ("info:" ++ url) = none →
      ∀ w, extractVideoId url = some w →
        apiInfo_server valid (none : Option α) fb now cache (some url)
          = ⟨.fallback fb, cache, true⟩)
    ∧ (vid.isEmpty = false →
      download_idx none (some vid) typeQ
        = (.redirect (if orDefault typeQ "mp4" = "mp4"
            then "https://www.y2mate.com/youtube/" ++ vid
            else "https://www.y2mate.com/youtube-mp3/" ++ vid), true))
    ∧ (vid.isEmpty = false →
      (typeQ.getD "mp4" = "mp4" ∨ typeQ.getD "mp4" = "mp3") →
      download_p1 none altApis now (some vid) typeQ = download_p1_alt altApis)
    ∧ (∀ u, (runChainTr altApis).1 = some u →
        download_p1_alt altApis = (.redirect u, true))
    ∧ ((runChainTr altApis).1 = none → download_p1_alt altApis
        = (.failed, true)) := by
  refine ⟨?_, ?_, ?_, ?_, ?_, ?_⟩
  · intro hv hne hget hvid
    simp [apiInfo_server, serverFetch, isMissing, hne, hv, hget, hvid]
  · intro hv hne hget w hvid
    simp [apiInfo_server, serverFetch, isMissing, hne, hv, hget, hvid]
  · intro hne
    by_cases ht : orDefault typeQ "mp4" = "mp4" <;>
      simp [download_idx, isMissing, hne, ht]
  · intro hne ht
    rcases ht with ht | ht <;> simp [download_p1, isMissing, hne, ht]
  · intro u hu
    simp [download_p1_alt, hu]
  · intro hu
    simp [download_p1_alt, hu]

/-- Concrete instance of `c6_extraction_failure`: with a failing
extraction and an unextractable id, server.js `/api/info` answers the
generic 500; the part_001 alternative chain with one failing and one
succeeding API redirects to the obtained URL. -/
theorem c6_extraction_failure_witness :
    apiInfo_server (fun _ => true) (none : Option Nat) 7 1 [] (some "zzz")
      = ⟨.failed, [], true⟩
    ∧ download_p1_alt [none, some "u"] = (.redirect "u", true) := by
  constructor
  · exact (c6_extraction_failure (fun _ => true) 7 1 [] "zzz" "x" none
      []).1 rfl (by decide) rfl (by decide)
  · exact (c6_extraction_failure (fun _ => true) (7 : Nat) 1 [] "zzz" "x" none
      [none, some "u"]).2.2.2.2.1 "u" (by decide)

/-- Claim C7: part_000's `GET /alternatives` answers 400 without a
videoId, and with one answers a success body whose alternatives map
exactly the five fixed service names to third-party URLs, each of which
contains the supplied videoId as a substring. -/
theorem c7_alternatives :
    alternativesHandler none = .missingId
    ∧ AltResp.missingId.status = 400
    ∧ (∀ v, v.isEmpty = false →
        alternativesHandler (some v) = .ok v (altList v)
        ∧ (alternativesHandler (some v)).status = 200)
    ∧ (∀ v, (altList v).map Prod.fst
        = ["y2mate", "y2mate_mp3", "ssyoutube", "yt5s", "loader"])
    ∧ (∀ v nu, nu ∈ altList v → ∃ p q, nu.2.data = p ++ v.data ++ q) := by
  refine ⟨rfl, rfl, ?_, ?_, ?_⟩
  · intro v hv
    constructor <;> simp [alternativesHandler, isMissing, hv, AltResp.status]
  · intro v
    rfl
  · intro v nu hnu
    simp only [altList, List.mem_cons, List.not_mem_nil, or_false] at hnu
    rcases hnu with h | h | h | h | h <;> subst h
    · exact ⟨"https://www.y2mate.com/youtube/".data, [],
        by simp [String.data_append]⟩
    · exact ⟨"https://www.y2mate.com/youtube-mp3/".data, [],
        by simp [String.data_append]⟩
    · exact ⟨"https://ssyoutube.com/watch?v=".data, [],
        by simp [String.data_append]⟩
    · exact ⟨"https://yt5s.com/en?q=https://youtube.com/watch?v=".data, [],
        by simp [String.data_append]⟩
    · exact ⟨"https://loader.to/en20/download-youtube-video.html?v=".data, [],
        by simp [String.data_append]⟩

/-- Concrete instance of `c7_alternatives`: the y2mate URL for videoId
"abc" contains "abc" as a substring. -/
theorem c7_alternatives_witness :
    ∃ p q, ("https://www.y2mate.com/youtube/" ++ "abc" : String).data
      = p ++ ("abc" : String).data ++ q :=
  c7_alternatives.2.2.2.2 "abc"
    ("y2mate", "https://www.y2mate.com/youtube/" ++ "abc")
    (by simp [altList])

theorem pad2_len : ∀ n, n < 100 → (pad2 n).data.length = 2 := by decide

/-- Claim C9: on every integer number of seconds at least 1 the four
`formatDuration` copies (server.js, part_000, part_001, part_002) agree;
the common value has the shape `H:MM:SS` when the input reaches 3600 and
`M:SS` below that, the minute and second fields are below 60 and render
as exactly two zero-padded digits where shown as `MM`/`SS`, and the
fields recompose to the original input as `H*3600 + M*60 + S`. -/
theorem c9_format_duration (s : Nat) (h : 1 ≤ s) :
    formatDuration_server s = fmtCore s
    ∧ formatDuration_p0 s = fmtCore s
    ∧ formatDuration_p1 s = fmtCore s
    ∧ formatDuration_p2 s = fmtCore s
    ∧ s = 3600 * (s / 3600) + 60 * (s % 3600 / 60) + s % 60
    ∧ s % 3600 / 60 < 60
    ∧ s % 60 < 60
    ∧ (pad2 (s % 3600 / 60)).data.length = 2
    ∧ (pad2 (s % 60)).data.length = 2
    ∧ (3600 ≤ s → fmtCore s
        = Nat.repr (s / 3600) ++ ":" ++ pad2 (s % 3600 / 60) ++ ":"
            ++ pad2 (s % 60))
    ∧ (s < 3600 → fmtCore s = Nat.repr (s % 3600 / 60) ++ ":"
        ++ pad2 (s % 60)) := by
  have hs0 : ¬ s = 0 := by omega
  refine ⟨?_, ?_, rfl, ?_, by omega, by omega, by omega, ?_, ?_, ?_, ?_⟩
  · simp [formatDuration_server, hs0]
  · simp [formatDuration_p0, hs0]
  · simp [formatDuration_p2, hs0]
  · exact pad2_len _ (by omega)
  · exact pad2_len _ (by omega)
  · intro h36
    rw [fmtCore, if_pos (by omega)]
  · intro h36
    rw [fmtCore, if_neg (by omega)]

/-- Concrete instance of `c9_format_duration`: 3725 seconds render as
one hour, two minutes, five seconds in every copy. -/
theorem c9_format_duration_witness :
    formatDuration_server 3725 = fmtCore 3725
    ∧ formatDuration_p2 3725 = fmtCore 3725
    ∧ fmtCore 3725 = Nat.repr (3725 / 3600) ++ ":" ++ pad2 (3725 % 3600 / 60)
        ++ ":" ++ pad2 (3725 % 60) :=
  ⟨(c9_format_duration 3725 (by decide)).1,
   (c9_format_duration 3725 (by decide)).2.2.2.1,
   (c9_format_duration 3725 (by decide)).2.2.2.2.2.2.2.2.2.1 (by decide)⟩

theorem collapseGo_mem :
    ∀ (l : List Char) (b : Bool) (c : Char), c ∈ collapseGo b l →
      c = '_' ∨ (c ∈ l ∧ isWs c = false) := by
  intro l
  induction l with
  | nil =>
    intro b c hc
    simp [collapseGo] at hc
  | cons a cs ih =>
    intro b c hc
    by_cases ha : isWs a = true
    · rw [collapseGo, if_pos ha] at hc
      cases b with
      | true =>
        rw [if_pos rfl] at hc
        rcases ih true c hc with h1 | h1
        · exact Or.inl h1
        · exact Or.inr ⟨List.mem_cons_of_mem _ h1.1, h1.2⟩
      | false =>
        rw [if_neg (by simp)] at hc
        rcases List.mem_cons.mp hc with h1 | h1
        · exact Or.inl h1
        · rcases ih true c h1 with h2 | h2
          · exact Or.inl h2
          · exact Or.inr ⟨List.mem_cons_of_mem _ h2.1, h2.2⟩
    · rw [collapseGo, if_neg ha] at hc
      rcases List.mem_cons.mp hc with h1 | h1
      · subst h1
        exact Or.inr ⟨List.mem_cons_self _ _, by simpa using ha⟩
      · rcases ih false c h1 with h2 | h2
        · exact Or.inl h2
        · exact Or.inr ⟨List.mem_cons_of_mem _ h2.1, h2.2⟩

theorem sanitize_dl_mem (t : String) (c : Char)
    (h : c ∈ (sanitize_dl t).data) : c = '_' ∨ isWordChar c = true := by
  have hdata : (sanitize_dl t).data
      = (collapseGo false
          (t.data.filter fun x => isWordChar x || isWs x)).take 100 := rfl
  rw [hdata] at h
  have h1 := List.mem_of_mem_take h
  rcases collapseGo_mem _ false c h1 with h2 | h2
  · exact Or.inl h2
  · rcases h2 with ⟨hmem, hws⟩
    have hk := (List.mem_filter.mp hmem).2
    rw [hws] at hk
    exact Or.inr (by simpa using hk)

/-- Claim C10, counterexample: the claim says the sanitized filename the
index.js and part_000 download handlers embed is collapsed and truncated
and hence free of CR/NL.  The first part_000 `/download` handler (lines
23-30) only removes characters outside word characters and whitespace —
and the JS `\s` class keeps the newline — so the title "a\nb" flows into
the Content-Disposition filename with its newline intact. -/
theorem c10_filename_counterexample :
    sanitize_plain "a\nb" = "a\nb"
    ∧ download_p0a (some "a\nb") (some "x") (some "mp4")
      = (.streamMp4 ("a\nb" ++ ".mp4"), true)
    ∧ '\n' ∈ (sanitize_plain "a\nb" ++ ".mp4").data := by
  refine ⟨by decide, by decide, by decide⟩

/-- Claim C10, amended: the index.js `/download` handler and part_000's
full `/download` handler sanitize the title by removing characters
outside word characters and whitespace, collapsing whitespace runs to an
underscore and truncating to 100 characters, so that filename part never
contains a double-quote, carriage return or newline and is at most 100
characters long; the minimal part_000 `/download` handler and index.js
`/direct` only perform the removal step, which still excludes
double-quotes but preserves whitespace (including CR and LF) and imposes
no length bound. -/
theorem c10_filename_amended (title vid : String) :
    ('"' ∈ (sanitize_dl title).data → False)
    ∧ ('\r' ∈ (sanitize_dl title).data → False)
    ∧ ('\n' ∈ (sanitize_dl title).data → False)
    ∧ (sanitize_dl title).data.length ≤ 100
    ∧ ('"' ∈ (sanitize_plain title).data → False)
    ∧ (vid.isEmpty = false →
        download_idx (some title) (some vid) (some "mp4")
          = (.streamMp4 (sanitize_dl title ++ ".mp4"), true)) := by
  refine ⟨?_, ?_, ?_, ?_, ?_, ?_⟩
  · intro h
    rcases sanitize_dl_mem title _ h with h1 | h1 <;> exact absurd h1 (by decide)
  · intro h
    rcases sanitize_dl_mem title _ h with h1 | h1 <;> exact absurd h1 (by decide)
  · intro h
    rcases sanitize_dl_mem title _ h with h1 | h1 <;> exact absurd h1 (by decide)
  · have hdata : (sanitize_dl title).data
        = (collapseGo false
            (title.data.filter fun x => isWordChar x || isWs x)).take 100 := rfl
    rw [hdata]
    exact List.length_take_le _ _
  · intro h
    have hk := (List.mem_filter.mp h).2
    exact absurd hk (by decide)
  · intro hvid
    simp [download_idx, isMissing, hvid]

/-- Concrete instance of `c10_filename_amended`: at a concrete title the
index.js download handler embeds the collapsed-and-truncated name, which
obeys the 100-character bound. -/
theorem c10_filename_amended_witness :
    download_idx (some "My  Movie: Part 2!") (some "x") (some "mp4")
      = (.streamMp4 (sanitize_dl "My  Movie: Part 2!" ++ ".mp4"), true)
    ∧ (sanitize_dl "My  Movie: Part 2!").data.length ≤ 100 :=
  ⟨(c10_filename_amended "My  Movie: Part 2!" "x").2.2.2.2.2 (by decide),
   (c10_filename_amended "My  Movie: Part 2!" "x").2.2.2.1⟩

end YT
